import Mathlib

/-!
Verification of the pybind11 binding layer in `python3-gpiod` (`src/c_src`).

The only algorithmic code in the repository is the custom
`pybind11::detail::type_caster<std::bitset<32>>` in `type_cast.h`, which
converts between a host (Python) integer and a C++ `std::bitset<32>`.
We give a shallow embedding of that converter, of the CPython integer
conversion primitives it calls, and of the declarative binding surface
(default arguments, class constants, the keep-alive iterator of
`line_bulk`), and prove or refute the specified properties.

Platform note: the embedding takes the width of the C `unsigned long`
type as an explicit parameter `w`; the concrete theorems instantiate it
at `w = 64` (LP64 Linux, the library's target platform).
-/

namespace PyGpiod

/-- A `std::bitset<32>` value: one boolean per bit position.  Element `i`
of the bitset is the function's value at `i`. -/
def Bitset32 : Type := Fin 32 → Bool

instance : DecidableEq Bitset32 :=
  inferInstanceAs (DecidableEq (Fin 32 → Bool))

/-- The default-constructed `std::bitset<32>()`: all bits clear.  This is
the state of the caster's `value` member before `load` assigns it. -/
def bitset_zero : Bitset32 := fun _ => false

/-- The bitset produced by the implicit conversion `std::bitset<32>(-1)`
used in the comparison `value == -1` in `load` (`type_cast.h:58`): the
low 32 bits of `0xFFFF...F`, i.e. all 32 bits set. -/
def bitset_all_ones : Bitset32 := fun _ => true

/-- The `std::bitset<32>` constructor from `unsigned long long` (used by
the assignment `value = PyLong_AsUnsignedLong(tmp)` in `type_cast.h:55`):
bit `i` of the bitset is bit `i` of `u`, for `i < 32`; higher bits of `u`
are discarded. -/
def bitset_from_ulong (u : Nat) : Bitset32 := fun i => u.testBit i.val

/-- Helper for `to_ulong`: assemble the first `n` bits (index 0 least
significant) into a natural number. -/
def to_ulong_aux : Nat → (Nat → Bool) → Nat
  | 0, _ => 0
  | n + 1, f => Nat.bit (f 0) (to_ulong_aux n (fun i => f (i + 1)))

/-- `std::bitset<32>::to_ulong` (used by `cast` in `type_cast.h:71`):
the unsigned integer whose bit `i` is element `i` of the bitset. -/
def to_ulong (b : Bitset32) : Nat :=
  to_ulong_aux 32 (fun i => if h : i < 32 then b ⟨i, h⟩ else false)

theorem testBit_to_ulong_aux (n : Nat) (f : Nat → Bool) (j : Nat) :
    (to_ulong_aux n f).testBit j = if j < n then f j else false := by
  induction n generalizing f j with
  | zero => simp [to_ulong_aux]
  | succ n ih =>
    cases j with
    | zero => simp [to_ulong_aux, Nat.testBit_bit_zero]
    | succ j =>
      rw [to_ulong_aux, Nat.testBit_bit_succ, ih]
      simp [Nat.succ_lt_succ_iff]

theorem testBit_to_ulong (b : Bitset32) (j : Nat) :
    (to_ulong b).testBit j = if h : j < 32 then b ⟨j, h⟩ else false := by
  rw [to_ulong, testBit_to_ulong_aux]
  split <;> simp_all

theorem to_ulong_aux_lt (n : Nat) (f : Nat → Bool) :
    to_ulong_aux n f < 2 ^ n := by
  induction n generalizing f with
  | zero => simp [to_ulong_aux]
  | succ n ih =>
    rw [to_ulong_aux, Nat.bit_val, Nat.pow_succ]
    have h := ih (fun i => f (i + 1))
    cases f 0 <;> simp [Bool.toNat] <;> omega

theorem to_ulong_lt (b : Bitset32) : to_ulong b < 2 ^ 32 :=
  to_ulong_aux_lt 32 _

theorem to_ulong_from_ulong (u : Nat) :
    to_ulong (bitset_from_ulong u) = u % 2 ^ 32 := by
  apply Nat.eq_of_testBit_eq
  intro j
  rw [testBit_to_ulong, Nat.testBit_mod_two_pow]
  by_cases h : j < 32 <;> simp [h, bitset_from_ulong]

theorem from_ulong_to_ulong (b : Bitset32) :
    bitset_from_ulong (to_ulong b) = b := by
  funext i
  rw [bitset_from_ulong, testBit_to_ulong]
  simp [i.isLt]

theorem from_ulong_eq_all_ones_iff (u : Nat) :
    bitset_from_ulong u = bitset_all_ones ↔ u % 2 ^ 32 = 2 ^ 32 - 1 := by
  constructor
  · intro h
    have := congrArg to_ulong h
    rw [to_ulong_from_ulong] at this
    rw [this]
    decide
  · intro h
    funext i
    rw [bitset_from_ulong]
    have : u.testBit i.val = (u % 2 ^ 32).testBit i.val := by
      rw [Nat.testBit_mod_two_pow]
      simp [i.isLt]
    rw [this, h, Nat.testBit_two_pow_sub_one]
    simp [bitset_all_ones, i.isLt]

/-- A host (Python) value as seen by `load`: `PyNumber_Long` either
succeeds, yielding an integer `n` (of unbounded magnitude and sign), or
fails with a type error (e.g. for non-numeric text). -/
inductive HostValue where
  | coercible (n : Int)
  | nonNumeric
deriving DecidableEq

/-- Result of `PyLong_AsUnsignedLong`: the returned `unsigned long`
value, and whether the call left the Python error indicator set. -/
structure ULongResult where
  ret : Nat
  err : Bool
deriving DecidableEq

/-- CPython's `PyLong_AsUnsignedLong` on a Python integer `n`, for a
platform whose `unsigned long` has `w` bits: a negative `n` or an `n`
that does not fit in `w` bits raises `OverflowError` and returns
`(unsigned long)-1`, i.e. `2^w - 1`; otherwise it returns `n` exactly
with no error. -/
def pyLong_AsUnsignedLong (w : Nat) (n : Int) : ULongResult :=
  if n < 0 ∨ (2 : Int) ^ w ≤ n then { ret := 2 ^ w - 1, err := true }
  else { ret := n.toNat, err := false }

/-- Outcome of the caster's `load` (`type_cast.h:48-59`): its boolean
return value, the caster's `value` member afterwards, and whether a
Python error indicator is left pending. -/
structure LoadResult where
  ok : Bool
  value : Bitset32
  errPending : Bool

/-- The caster's `load` (`type_cast.h:48-59`), on a platform with a
`w`-bit `unsigned long`.  `PyNumber_Long` failing returns `false` at
once (value untouched, a type error pending).  Otherwise `value` is
assigned from `PyLong_AsUnsignedLong` (truncated to 32 bits by the
bitset assignment), and the return value is the source's
`!(value == -1 && !PyErr_Occurred())`. -/
def load (w : Nat) (src : HostValue) : LoadResult :=
  match src with
  | .nonNumeric => { ok := false, value := bitset_zero, errPending := true }
  | .coercible n =>
    let r := pyLong_AsUnsignedLong w n
    let v := bitset_from_ulong r.ret
    { ok := !(decide (v = bitset_all_ones) && !r.err)
      value := v
      errPending := r.err }

/-- The caster's `cast` (`type_cast.h:68-72`):
`PyLong_FromUnsignedLong(src.to_ulong())`.  `PyLong_FromUnsignedLong`
is exact on unsigned values, so the host integer produced is
`to_ulong` of the bitset. -/
def cast (b : Bitset32) : Nat := to_ulong b

lemma pyLong64_nat (x : Nat) (hx : x < 2 ^ 64) :
    pyLong_AsUnsignedLong 64 (x : Int) = { ret := x, err := false } := by
  have hc : ¬((x : Int) < 0 ∨ (2 : Int) ^ 64 ≤ (x : Int)) := by
    push_neg
    constructor
    · exact Int.natCast_nonneg x
    · have h : ((x : Int)) < ((2 ^ 64 : Nat) : Int) := by exact_mod_cast hx
      simpa using h
  rw [pyLong_AsUnsignedLong, if_neg hc]
  simp

lemma pyLong64_err (n : Int) (h : n < 0 ∨ (2 : Int) ^ 64 ≤ n) :
    pyLong_AsUnsignedLong 64 n = { ret := 2 ^ 64 - 1, err := true } := by
  rw [pyLong_AsUnsignedLong, if_pos h]

lemma load64_nat (x : Nat) (hx : x < 2 ^ 64) :
    load 64 (HostValue.coercible (x : Int))
      = { ok := !decide (bitset_from_ulong x = bitset_all_ones),
          value := bitset_from_ulong x, errPending := false } := by
  simp [load, pyLong64_nat x hx]

lemma all_ones_branch (n : Int) (h : n < 0 ∨ (2 : Int) ^ 64 ≤ n) :
    load 64 (HostValue.coercible n)
      = { ok := true, value := bitset_all_ones, errPending := true } := by
  have hall : bitset_from_ulong 18446744073709551615 = bitset_all_ones := by decide
  simp [load, pyLong64_err n h, hall]

lemma from_ulong_ne_all_ones (x : Nat) (h32 : x < 2 ^ 32 - 1) :
    ¬bitset_from_ulong x = bitset_all_ones := by
  rw [from_ulong_eq_all_ones_iff, Nat.mod_eq_of_lt (by omega)]
  omega

/-- C1 (code divergence): the integer `0xFFFFFFFF` does NOT convert
successfully.  `PyLong_AsUnsignedLong` parses it without error, yet `load`
returns `false`, because the check at `type_cast.h:58` negates
`PyErr_Occurred()`: it rejects exactly the no-error all-bits-set case the
claim says must succeed. -/
theorem load_rejects_all_ones_sentinel :
    (pyLong_AsUnsignedLong 64 4294967295).err = false ∧
    (load 64 (HostValue.coercible 4294967295)).ok = false ∧
    (load 64 (HostValue.coercible 4294967295)).value = bitset_all_ones :=
  ⟨by decide, by decide, by decide⟩

/-- C2 (code divergence): the load/cast round trip is exact for every
`x < 2^32 - 1`, but the claimed bijection on all of `[0, 2^32-1]` fails:
the in-range value `2^32 - 1` is rejected by `load`, so the round trip is
impossible there. -/
theorem load_cast_round_trip_fails_at_sentinel :
    (∀ x : Nat, x < 2 ^ 32 - 1 →
      (load 64 (HostValue.coercible (x : Int))).ok = true ∧
      cast (load 64 (HostValue.coercible (x : Int))).value = x) ∧
    ((2 ^ 32 - 1 : Nat) < 2 ^ 32 ∧
      (load 64 (HostValue.coercible ((2 : Int) ^ 32 - 1))).ok = false) := by
  constructor
  · intro x hx
    have hx64 : x < 2 ^ 64 := by omega
    have hmod : x % 2 ^ 32 = x := Nat.mod_eq_of_lt (by omega)
    rw [load64_nat x hx64]
    constructor
    · show (!decide (bitset_from_ulong x = bitset_all_ones)) = true
      rw [decide_eq_false (from_ulong_ne_all_ones x hx)]
      rfl
    · show cast (bitset_from_ulong x) = x
      rw [cast, to_ulong_from_ulong, hmod]
  · exact ⟨by norm_num, by decide⟩

/-- Witness for the universally quantified part of the C2 theorem, at
`x = 5`. -/
theorem load_cast_round_trip_fails_at_sentinel_witness :
    (5 : Nat) < 2 ^ 32 - 1 ∧
    ((load 64 (HostValue.coercible ((5 : Nat) : Int))).ok = true ∧
      cast (load 64 (HostValue.coercible ((5 : Nat) : Int))).value = 5) :=
  ⟨by norm_num, load_cast_round_trip_fails_at_sentinel.1 5 (by norm_num)⟩

/-- C3: for each bit position `i < 32`, loading the integer `2^i`
succeeds and produces the flag set whose element `j` is set exactly when
`j = i`. -/
theorem load_two_pow_exactly_one_bit :
    ∀ i : Fin 32, (load 64 (HostValue.coercible ((2 : Int) ^ (i : Nat)))).ok = true ∧
      ∀ j : Fin 32, (load 64 (HostValue.coercible ((2 : Int) ^ (i : Nat)))).value j
        = decide (j = i) := by
  intro i
  have hpow_int : ((2 : Int) ^ (i : Nat)) = (((2 ^ (i : Nat) : Nat)) : Int) := by
    push_cast
    ring
  have hle : (2 : Nat) ^ (i : Nat) ≤ 2 ^ 31 :=
    Nat.pow_le_pow_right (by norm_num) (by omega)
  have hlt : (2 : Nat) ^ (i : Nat) < 2 ^ 64 := by omega
  rw [hpow_int, load64_nat _ hlt]
  constructor
  · show (!decide (bitset_from_ulong (2 ^ (i : Nat)) = bitset_all_ones)) = true
    rw [decide_eq_false (from_ulong_ne_all_ones _ (by omega))]
    rfl
  · intro j
    show bitset_from_ulong (2 ^ (i : Nat)) j = decide (j = i)
    rw [bitset_from_ulong, Nat.testBit_two_pow]
    simp [Fin.ext_iff, eq_comm]

/-- C4: a host value that `PyNumber_Long` cannot coerce to an integer
makes `load` return `false` immediately (a pending type error, no flag-set
value substituted), on every platform width. -/
theorem load_nonNumeric_fails_cleanly :
    ∀ w : Nat, load w HostValue.nonNumeric
      = { ok := false, value := bitset_zero, errPending := true } :=
  fun _ => rfl

/-- C5 counterexample: the out-of-range integer `-1` is accepted by
`load` (it returns `true`), refuting the claim that every value outside
`[0, 2^32-1]` is rejected. -/
theorem load_accepts_negative_one :
    (-1 : Int) < 0 ∧ (load 64 (HostValue.coercible (-1))).ok = true :=
  ⟨by decide, by decide⟩

/-- C5 amended: on out-of-range input `load` does not reject.  It
returns `true` for every out-of-range integer except those in
`[2^32, 2^64)` whose low 32 bits are all set: negative values and values
`≥ 2^64` are accepted as the all-ones flag set (with a pending
`OverflowError`), and values in `[2^32, 2^64)` are truncated to their low
32 bits and accepted unless that truncation is `0xFFFFFFFF`. -/
theorem load_out_of_range_not_rejected :
    ∀ n : Int, n < 0 ∨ (2 : Int) ^ 32 ≤ n →
      (load 64 (HostValue.coercible n)).ok
        = !decide (0 ≤ n ∧ n < (2 : Int) ^ 64 ∧ n.toNat % 2 ^ 32 = 2 ^ 32 - 1) := by
  intro n _
  by_cases h64 : n < 0 ∨ (2 : Int) ^ 64 ≤ n
  · have hc : ¬(0 ≤ n ∧ n < (2 : Int) ^ 64 ∧ n.toNat % 2 ^ 32 = 2 ^ 32 - 1) := by
      rcases h64 with h | h
      · exact fun hk => absurd h (not_lt.mpr hk.1)
      · exact fun hk => absurd h (not_le.mpr hk.2.1)
    rw [all_ones_branch n h64]
    show true = !decide (0 ≤ n ∧ n < (2 : Int) ^ 64 ∧ n.toNat % 2 ^ 32 = 2 ^ 32 - 1)
    rw [decide_eq_false hc]
    rfl
  · push_neg at h64
    obtain ⟨h0, hlt⟩ := h64
    have hn64 : n.toNat < 2 ^ 64 := by omega
    have hiff : (0 ≤ n ∧ n < (2 : Int) ^ 64 ∧ n.toNat % 2 ^ 32 = 2 ^ 32 - 1)
        ↔ bitset_from_ulong n.toNat = bitset_all_ones := by
      rw [from_ulong_eq_all_ones_iff]
      exact ⟨fun hk => hk.2.2, fun hmod => ⟨h0, hlt, hmod⟩⟩
    rw [decide_eq_decide.mpr hiff]
    have hrw : n = ((n.toNat : Nat) : Int) := (Int.toNat_of_nonneg h0).symm
    conv_lhs => rw [hrw]
    rw [load64_nat n.toNat hn64]

/-- Witness for the C5 amended theorem at the out-of-range input
`2^32`, which `load` accepts (truncated to 0). -/
theorem load_out_of_range_not_rejected_witness :
    ((4294967296 : Int) < 0 ∨ (2 : Int) ^ 32 ≤ 4294967296) ∧
    (load 64 (HostValue.coercible 4294967296)).ok
      = !decide ((0 : Int) ≤ 4294967296 ∧ (4294967296 : Int) < (2 : Int) ^ 64 ∧
          (4294967296 : Int).toNat % 2 ^ 32 = 2 ^ 32 - 1) :=
  ⟨Or.inr (by norm_num), load_out_of_range_not_rejected 4294967296 (Or.inr (by norm_num))⟩

/-- C6: `cast` succeeds on every flag set, and the host integer it
produces has bit `i` equal to element `i` of the flag set for every
`i < 32` (and lies below `2^32`). -/
theorem cast_total_bit_faithful :
    ∀ b : Bitset32, cast b < 2 ^ 32 ∧ ∀ i : Fin 32, (cast b).testBit i.val = b i := by
  intro b
  refine ⟨to_ulong_lt b, fun i => ?_⟩
  rw [cast, testBit_to_ulong]
  simp [i.isLt]

/-- C10: whenever the `PyLong_AsUnsignedLong` step itself fails (any
negative input, or one `≥ 2^64`), `load` reports SUCCESS with the
all-bits-set flag set and leaves the error indicator pending, instead of
reporting failure: the inverted `!PyErr_Occurred()` check at
`type_cast.h:58` turns the error sentinel into an accepted value. -/
theorem load_error_branch_reports_success :
    ∀ n : Int, (pyLong_AsUnsignedLong 64 n).err = true →
      (load 64 (HostValue.coercible n)).ok = true ∧
      (load 64 (HostValue.coercible n)).value = bitset_all_ones ∧
      (load 64 (HostValue.coercible n)).errPending = true := by
  intro n hn
  have hcond : n < 0 ∨ (2 : Int) ^ 64 ≤ n := by
    by_contra hc
    rw [pyLong_AsUnsignedLong, if_neg hc] at hn
    simp at hn
  rw [all_ones_branch n hcond]
  exact ⟨rfl, rfl, rfl⟩

/-- Witness for the C10 theorem at the failing extraction input `-1`. -/
theorem load_error_branch_reports_success_witness :
    (pyLong_AsUnsignedLong 64 (-1)).err = true ∧
    ((load 64 (HostValue.coercible (-1))).ok = true ∧
      (load 64 (HostValue.coercible (-1))).value = bitset_all_ones ∧
      (load 64 (HostValue.coercible (-1))).errPending = true) :=
  ⟨by decide, load_error_branch_reports_success (-1) (by decide)⟩


/-- The `gpiod::line_request` configuration record as bound in
`gpiod.cpp:45-48` and `line_request_wrapper.h:67-70`: a consumer name, a
request-type enumerator, and a 32-bit flag set. -/
structure line_request where
  consumer : String
  request_type : Int
  flags : Bitset32

/-- The bound `line.request` entry point (`line_wrapper.h:86-89`,
`gpiod.cpp:63-66`).  pybind11 declares `py::arg("default_val") = 0`, so
a call that omits the default value invokes the native
`gpiod::line::request` with `default_val = 0`; the result records the
argument pair handed to the native call. -/
def line_request_entry (config : line_request) (default_val : Option Int) :
    line_request × Int :=
  (config, default_val.getD 0)

/-- The bound `line_bulk.request` entry point
(`line_bulk_wrapper.h:59-62`).  pybind11 declares
`py::arg("default_vals") = std::vector<int>()`, so omitting the argument
passes the empty vector to the native `gpiod::line_bulk::request`. -/
def line_bulk_request_entry (config : line_request)
    (default_vals : Option (List Int)) : line_request × List Int :=
  (config, default_vals.getD [])

/-- C7: calling `line.request` with only a configuration argument makes
exactly the native call made by passing an explicit default value of 0,
and `line_bulk.request` without explicit default values makes exactly the
native call made by passing the empty vector. -/
theorem request_default_args :
    ∀ config : line_request,
      line_request_entry config none = line_request_entry config (some 0) ∧
      line_bulk_request_entry config none
        = line_bulk_request_entry config (some []) :=
  fun _ => ⟨rfl, rfl⟩

/-- How a class-level integer constant is bound to the host: either as a
static property with only a getter (`def_property_readonly_static`, used
by the wrapper headers) or as a plain class-dictionary attribute
(`cls.attr("NAME") = value`, used by `gpiod.cpp`). -/
inductive AttrKind where
  | readonlyStaticProperty
  | plainAttr
deriving DecidableEq

/-- One bound class-level constant: host class name, attribute name,
integer value, and the binding mechanism used. -/
structure ConstBinding where
  cls : String
  name : String
  value : Int
  kind : AttrKind
deriving DecidableEq

/-- The native enumerator values supplied by the external `gpiod.hpp`
(`gpiod::chip::OPEN_*`, `gpiod::line::*`, `gpiod::line_request::*`,
`gpiod::line_event::*`, `gpiod::line_bulk::MAX_LINES`), kept abstract
because the native library is not part of this repository. -/
structure NativeEnums where
  OPEN_LOOKUP : Int
  OPEN_BY_PATH : Int
  OPEN_BY_NAME : Int
  OPEN_BY_LABEL : Int
  OPEN_BY_NUMBER : Int
  DIRECTION_INPUT : Int
  DIRECTION_OUTPUT : Int
  ACTIVE_LOW : Int
  ACTIVE_HIGH : Int
  BIAS_AS_IS : Int
  BIAS_DISABLE : Int
  BIAS_PULL_UP : Int
  BIAS_PULL_DOWN : Int
  REQ_DIRECTION_AS_IS : Int
  REQ_DIRECTION_INPUT : Int
  REQ_DIRECTION_OUTPUT : Int
  EVENT_FALLING_EDGE : Int
  EVENT_RISING_EDGE : Int
  EVENT_BOTH_EDGES : Int
  RISING_EDGE : Int
  FALLING_EDGE : Int
  MAX_LINES : Int
deriving DecidableEq

/-- The (class, attribute, value) triples bound by the wrapper headers:
`set_chip_class` (`chip_wrapper.h:125-139`), `set_line_class`
(`line_wrapper.h:157-183`, the `BIAS_*` block only when the native
library is at least version 1.5), `set_line_request_class`
(`line_request_wrapper.h:37-65`), `set_line_event_class`
(`line_event_wrapper.h:37-43`), and `set_line_bulk_class`
(`line_bulk_wrapper.h:88-89`). -/
def wrapper_const_entries (e : NativeEnums) (bias_available : Bool) :
    List (String × String × Int) :=
  [("chip", "OPEN_LOOKUP", e.OPEN_LOOKUP),
   ("chip", "OPEN_BY_PATH", e.OPEN_BY_PATH),
   ("chip", "OPEN_BY_NAME", e.OPEN_BY_NAME),
   ("chip", "OPEN_BY_LABEL", e.OPEN_BY_LABEL),
   ("chip", "OPEN_BY_NUMBER", e.OPEN_BY_NUMBER),
   ("line", "DIRECTION_INPUT", e.DIRECTION_INPUT),
   ("line", "DIRECTION_OUTPUT", e.DIRECTION_OUTPUT),
   ("line", "ACTIVE_LOW", e.ACTIVE_LOW),
   ("line", "ACTIVE_HIGH", e.ACTIVE_HIGH),
   ("line_request", "DIRECTION_AS_IS", e.REQ_DIRECTION_AS_IS),
   ("line_request", "DIRECTION_INPUT", e.REQ_DIRECTION_INPUT),
   ("line_request", "DIRECTION_OUTPUT", e.REQ_DIRECTION_OUTPUT),
   ("line_request", "EVENT_FALLING_EDGE", e.EVENT_FALLING_EDGE),
   ("line_request", "EVENT_RISING_EDGE", e.EVENT_RISING_EDGE),
   ("line_request", "EVENT_BOTH_EDGES", e.EVENT_BOTH_EDGES),
   ("line_event", "RISING_EDGE", e.RISING_EDGE),
   ("line_event", "FALLING_EDGE", e.FALLING_EDGE),
   ("line_bulk", "MAX_LINES", e.MAX_LINES)]
  ++ (if bias_available then
      [("line", "BIAS_AS_IS", e.BIAS_AS_IS),
       ("line", "BIAS_DISABLE", e.BIAS_DISABLE),
       ("line", "BIAS_PULL_UP", e.BIAS_PULL_UP),
       ("line", "BIAS_PULL_DOWN", e.BIAS_PULL_DOWN)]
    else [])

/-- The constants of the wrapper headers, every one bound through
`def_property_readonly_static`. -/
def wrapper_const_bindings (e : NativeEnums) (bias_available : Bool) :
    List ConstBinding :=
  (wrapper_const_entries e bias_available).map
    fun t => { cls := t.1, name := t.2.1, value := t.2.2,
               kind := AttrKind.readonlyStaticProperty }

/-- The (class, attribute, value) triples bound by the module definition
in `gpiod.cpp` (lines 23-27, 32-43, 89-92, 104-105), every one through a
plain `cls.attr("NAME") = value` assignment. -/
def gpiod_cpp_const_entries (e : NativeEnums) :
    List (String × String × Int) :=
  [("chip", "OPEN_LOOKUP", e.OPEN_LOOKUP),
   ("chip", "OPEN_BY_PATH", e.OPEN_BY_PATH),
   ("chip", "OPEN_BY_NAME", e.OPEN_BY_NAME),
   ("chip", "OPEN_BY_LABEL", e.OPEN_BY_LABEL),
   ("chip", "OPEN_BY_NUMBER", e.OPEN_BY_NUMBER),
   ("line_request", "DIRECTION_AS_IS", e.REQ_DIRECTION_AS_IS),
   ("line_request", "DIRECTION_INPUT", e.REQ_DIRECTION_INPUT),
   ("line_request", "DIRECTION_OUTPUT", e.REQ_DIRECTION_OUTPUT),
   ("line_request", "EVENT_FALLING_EDGE", e.EVENT_FALLING_EDGE),
   ("line_request", "EVENT_RISING_EDGE", e.EVENT_RISING_EDGE),
   ("line_request", "EVENT_BOTH_EDGES", e.EVENT_BOTH_EDGES),
   ("line", "DIRECTION_INPUT", e.DIRECTION_INPUT),
   ("line", "DIRECTION_OUTPUT", e.DIRECTION_OUTPUT),
   ("line", "ACTIVE_LOW", e.ACTIVE_LOW),
   ("line", "ACTIVE_HIGH", e.ACTIVE_HIGH),
   ("line_event", "RISING_EDGE", e.RISING_EDGE),
   ("line_event", "FALLING_EDGE", e.FALLING_EDGE)]

/-- The constants of the `PYBIND11_MODULE` block in `gpiod.cpp`, every
one bound as a plain class attribute. -/
def gpiod_cpp_const_bindings (e : NativeEnums) : List ConstBinding :=
  (gpiod_cpp_const_entries e).map
    fun t => { cls := t.1, name := t.2.1, value := t.2.2,
               kind := AttrKind.plainAttr }

/-- Host-side assignment to a bound class-level constant, following
pybind11 attribute semantics: a `def_property_readonly_static` binding
has no setter, so the assignment raises `AttributeError` and the binding
is unchanged (`none`); a plain `cls.attr(...) = value` binding lives in
the class dictionary and is simply overwritten with the new value. -/
def host_setattr (c : ConstBinding) (v : Int) : Option ConstBinding :=
  match c.kind with
  | .readonlyStaticProperty => none
  | .plainAttr => some { c with value := v }

/-- A concrete instantiation of the native enumerator values, used to
exhibit closed instances of the binding-surface theorems. -/
def sampleEnums : NativeEnums :=
  { OPEN_LOOKUP := 1, OPEN_BY_PATH := 2, OPEN_BY_NAME := 3,
    OPEN_BY_LABEL := 4, OPEN_BY_NUMBER := 5,
    DIRECTION_INPUT := 1, DIRECTION_OUTPUT := 2,
    ACTIVE_LOW := 1, ACTIVE_HIGH := 2,
    BIAS_AS_IS := 1, BIAS_DISABLE := 2, BIAS_PULL_UP := 3,
    BIAS_PULL_DOWN := 4,
    REQ_DIRECTION_AS_IS := 1, REQ_DIRECTION_INPUT := 2,
    REQ_DIRECTION_OUTPUT := 3,
    EVENT_FALLING_EDGE := 1, EVENT_RISING_EDGE := 2,
    EVENT_BOTH_EDGES := 3,
    RISING_EDGE := 1, FALLING_EDGE := 2, MAX_LINES := 64 }

/-- C8 counterexample: the `chip.OPEN_LOOKUP` constant bound in
`gpiod.cpp:23` is a plain class attribute, and a host-side assignment to
it succeeds and changes its value — it is not read-only as claimed. -/
theorem gpiod_cpp_open_lookup_attr_writable :
    (gpiod_cpp_const_bindings sampleEnums).head?
      = some { cls := "chip", name := "OPEN_LOOKUP",
               value := sampleEnums.OPEN_LOOKUP,
               kind := AttrKind.plainAttr } ∧
    host_setattr { cls := "chip", name := "OPEN_LOOKUP",
                   value := sampleEnums.OPEN_LOOKUP,
                   kind := AttrKind.plainAttr }
        (sampleEnums.OPEN_LOOKUP + 1)
      = some { cls := "chip", name := "OPEN_LOOKUP",
               value := sampleEnums.OPEN_LOOKUP + 1,
               kind := AttrKind.plainAttr } ∧
    sampleEnums.OPEN_LOOKUP + 1 ≠ sampleEnums.OPEN_LOOKUP :=
  ⟨rfl, rfl, by decide⟩

/-- C8 amended: the constants bound by the wrapper headers are read-only
class-level attributes — host assignment to any of them fails and leaves
the value unchanged — while the constants bound by the module block in
`gpiod.cpp` are plain class attributes that a host assignment overwrites;
in both surfaces the bound value is the corresponding native enumerator
by construction. -/
theorem wrapper_consts_readonly_module_consts_writable :
    ∀ (e : NativeEnums) (bias_available : Bool) (v : Int),
      (∀ c ∈ wrapper_const_bindings e bias_available,
        host_setattr c v = none) ∧
      (∀ c ∈ gpiod_cpp_const_bindings e,
        host_setattr c v = some { c with value := v }) := by
  intro e bias v
  constructor
  · intro c hc
    simp only [wrapper_const_bindings, List.mem_map] at hc
    obtain ⟨t, _, rfl⟩ := hc
    rfl
  · intro c hc
    simp only [gpiod_cpp_const_bindings, List.mem_map] at hc
    obtain ⟨t, _, rfl⟩ := hc
    rfl

/-- Witness for the C8 amended theorem: with the sample enumerator
values, assigning 99 to the read-only `chip.OPEN_LOOKUP` of the wrapper
surface fails. -/
theorem wrapper_consts_readonly_witness :
    host_setattr { cls := "chip", name := "OPEN_LOOKUP",
                   value := sampleEnums.OPEN_LOOKUP,
                   kind := AttrKind.readonlyStaticProperty } 99 = none :=
  (wrapper_consts_readonly_module_consts_writable sampleEnums true 99).1 _
    (by simp [wrapper_const_bindings, wrapper_const_entries, sampleEnums])

/-- Heap model for the `line_bulk` iterator lifetime rule
(`line_bulk_wrapper.h:91-100`): the bulk's ordered line contents (line
offsets) plus a reference count. -/
structure BulkHeap where
  lines : List Nat
  refs : Nat
deriving DecidableEq

/-- Collection step of the host runtime: a bulk with no remaining
reference is freed, losing its contents; one with a live reference is
untouched. -/
def collect_bulk (h : BulkHeap) : BulkHeap :=
  if h.refs = 0 then { lines := [], refs := 0 } else h

/-- The iterator returned by the bound `__iter__`: a cursor into the
bulk, plus the keep-alive edge that `py::keep_alive<0, 1>()` installs
from the iterator (call result, index 0) to the bulk (argument `self`,
index 1). -/
structure BulkIter where
  pos : Nat
  keeps_alive : Bool
deriving DecidableEq

/-- The bound `__iter__` (`line_bulk_wrapper.h:91-97`):
`py::make_iterator(self.begin(), self.end())` declared with
`py::keep_alive<0, 1>()` — the new iterator starts at the first line and
holds a keep-alive reference to the bulk, raising its reference count. -/
def make_iterator (h : BulkHeap) : BulkHeap × BulkIter :=
  ({ lines := h.lines, refs := h.refs + 1 },
   { pos := 0, keeps_alive := true })

/-- Discarding every reference to the bulk other than the iterator's
keep-alive edge, after which the runtime collects the bulk if nothing
keeps it alive. -/
def drop_other_refs (h : BulkHeap) (it : BulkIter) : BulkHeap :=
  collect_bulk { lines := h.lines, refs := if it.keeps_alive then 1 else 0 }

/-- One step of the iteration protocol. -/
inductive IterStep where
  | fault
  | done
  | yield (line : Nat) (it : BulkIter)

/-- Reading the next line through the iterator.  Reading through a
collected bulk is a use-after-free (`fault`); otherwise the line at the
cursor is yielded, or the iteration ends once the cursor passes the end
of the bulk. -/
def iter_next (h : BulkHeap) (it : BulkIter) : IterStep :=
  if h.refs = 0 then .fault
  else
    match h.lines[it.pos]? with
    | none => .done
    | some x => .yield x { pos := it.pos + 1, keeps_alive := it.keeps_alive }

/-- Running the iteration to completion (with fuel): `some ls` means the
iteration terminated normally after yielding exactly `ls`, in order;
`none` means a fault (or fuel exhaustion) occurred. -/
def drain (h : BulkHeap) : Nat → BulkIter → Option (List Nat)
  | fuel, it =>
    match iter_next h it with
    | .fault => none
    | .done => some []
    | .yield x it' =>
      match fuel with
      | 0 => none
      | fuel + 1 => (drain h fuel it').map (x :: ·)

lemma drain_alive (l : List Nat) (r : Nat) (hr : r ≠ 0) :
    ∀ (fuel pos : Nat) (ka : Bool), l.length ≤ pos + fuel →
      drain { lines := l, refs := r } fuel { pos := pos, keeps_alive := ka }
        = some (l.drop pos) := by
  intro fuel
  induction fuel with
  | zero =>
    intro pos ka hlen
    have hget : l[pos]? = none := by
      rw [List.getElem?_eq_none_iff]
      omega
    rw [drain, iter_next, if_neg hr, hget]
    rw [List.drop_eq_nil_of_le (by omega)]
  | succ fuel ih =>
    intro pos ka hlen
    rw [drain, iter_next, if_neg hr]
    cases hget : l[pos]? with
    | none =>
      rw [List.drop_eq_nil_of_le]
      rw [← List.getElem?_eq_none_iff]
      exact hget
    | some x =>
      obtain ⟨hlt, hx⟩ := List.getElem?_eq_some_iff.mp hget
      dsimp only
      rw [ih (pos + 1) ka (by omega)]
      rw [List.drop_eq_getElem_cons hlt, hx]
      rfl

/-- The C9 scenario: a bulk holding `lines` with a single host
reference; `__iter__` is called, every reference other than the
iterator's keep-alive edge is discarded, and the iteration is then run
to completion. -/
def iterate_after_drop (lines : List Nat) : Option (List Nat) :=
  let p := make_iterator { lines := lines, refs := 1 }
  drain (drop_other_refs p.1 p.2) lines.length p.2

/-- C9: after obtaining an iterator over a line_bulk and discarding every
other reference to it, the keep-alive edge installed by
`py::keep_alive<0, 1>()` keeps the bulk alive, and the iteration still
yields every contained line exactly once, in insertion order, with no
use-after-free fault. -/
theorem iterator_keep_alive_yields_all :
    ∀ lines : List Nat, iterate_after_drop lines = some lines := by
  intro lines
  show drain (collect_bulk { lines := lines, refs := 1 }) lines.length
      { pos := 0, keeps_alive := true } = some lines
  rw [show collect_bulk { lines := lines, refs := 1 }
      = { lines := lines, refs := 1 } from rfl]
  rw [drain_alive lines 1 one_ne_zero lines.length 0 true (by omega)]
  rw [List.drop_zero]

end PyGpiod
